import Mathlib

/-!
Shallow embedding of `ml_ddos_detector.py` (class `MLDDoSDetector`).

Modelling conventions:
* Python timestamps, thresholds and anomaly scores are embedded as `ℚ`.
* Python `dict`s (including `defaultdict`s) are embedded as association
  lists `List (String × α)`: `alookup`/`ainsert`/`aerase` mirror dict
  read/update/delete with insertion order preserved, as CPython does.
* Python `set`s become `Finset String`.
* The sklearn pipeline (`StandardScaler.fit_transform`, `IsolationForest.fit`,
  `score_samples`) is abstracted as a score oracle
  `Score : List (List ℚ) → List ℚ → ℚ` taking the population feature matrix
  and one feature row to the anomaly score (already negated, higher = more
  anomalous, as in the source).  Every call of `model.fit` in the source is
  instrumented by incrementing the `trainCount` field, so that statements
  about when retraining happens can be expressed.
* The hidden clock `time.time()` used by `_clean_old_data` is passed
  explicitly as a `now : ℚ` argument.
-/

namespace DDoSMonitor

/-- A single request record, as appended by `record_request` to
`self.traffic_data[ip]` (a dict with keys timestamp/bytes/method/url/status_code). -/
structure TrafficRecord where
  timestamp : ℚ
  bytes : ℤ
  method : String
  url : String
  status_code : ℤ
deriving DecidableEq

/-- Association-list lookup: `m[k]` / `k in m` on a Python dict. -/
def alookup {α : Type} : List (String × α) → String → Option α
  | [], _ => none
  | (k, v) :: rest, key => if k = key then some v else alookup rest key

/-- Association-list update: `m[k] = v` on a Python dict (replaces in place,
appends at the end when the key is new, preserving insertion order). -/
def ainsert {α : Type} : List (String × α) → String → α → List (String × α)
  | [], key, v => [(key, v)]
  | (k, w) :: rest, key, v =>
      if k = key then (k, v) :: rest else (k, w) :: ainsert rest key v

/-- Association-list delete: `del m[k]` on a Python dict (no-op when absent,
which the source guards with `if k in m`). -/
def aerase {α : Type} : List (String × α) → String → List (String × α)
  | [], _ => []
  | (k, w) :: rest, key => if k = key then rest else (k, w) :: aerase rest key

/-- Embeds `list(m.keys())` on a Python dict. -/
def akeys {α : Type} (m : List (String × α)) : List String := m.map Prod.fst

/-- Embeds `list(m.values())` on a Python dict. -/
def avalues {α : Type} (m : List (String × α)) : List α := m.map Prod.snd

/-- Embeds `np.mean` of a list (0 for the empty list, which the source guards against). -/
def listMean (l : List ℚ) : ℚ := if l = [] then 0 else l.sum / l.length

/-- Population variance of a list.  The source stores
`np.std(intervals)`, the nonnegative square root of this value; squaring is
injective on nonnegatives, so two windows give equal (resp. different)
variance exactly when they give equal (resp. different) standard deviation.
Using variance keeps the feature computable over `ℚ`. -/
def listVar (l : List ℚ) : ℚ := listMean (l.map fun x => (x - listMean l) ^ 2)

/-- Embeds `np.diff`: consecutive differences. -/
def diffs : List ℚ → List ℚ
  | x :: y :: rest => (y - x) :: diffs (y :: rest)
  | _ => []

/-- Embeds `max(l)` for a nonempty list of rationals (0 default for `[]`). -/
def maxQ : List ℚ → ℚ
  | [] => 0
  | x :: rest => rest.foldl max x

/-- Embeds `min(l)` for a nonempty list of rationals (0 default for `[]`). -/
def minQ : List ℚ → ℚ
  | [] => 0
  | x :: rest => rest.foldl min x

/-- Python `int(x)` on a float: truncation toward zero. -/
def truncQ (q : ℚ) : ℤ := if 0 ≤ q then ⌊q⌋ else ⌈q⌉

/-- Appending to a `deque(maxlen := n)`: append on the right, dropping from the
left whenever the length would exceed `n`. -/
def dequeAppend {α : Type} (maxlen : ℕ) (l : List α) (x : α) : List α :=
  if maxlen < (l ++ [x]).length then (l ++ [x]).drop ((l ++ [x]).length - maxlen)
  else l ++ [x]

/-- The state of one `MLDDoSDetector` instance.  `trainCount` instruments how
many times `self.model.fit` has run (it is not a Python field; every other
field embeds the attribute of the same name). -/
structure DetectorState where
  block_threshold : ℚ
  window_size : ℚ
  features_window : ℕ
  traffic_data : List (String × List TrafficRecord)
  ip_timestamps : List (String × List ℚ)
  ip_features : List (String × List ℚ)
  blocked_ips : Finset String
  suspicious_ips : Finset String
  false_positives : Finset String
  trainCount : ℕ
deriving DecidableEq

/-- The abstracted sklearn scoring pipeline: population feature matrix and one
feature row to the reported anomaly score (`-model.score_samples(row)[0]`). -/
abbrev Score := List (List ℚ) → List ℚ → ℚ

/-- Fresh detector state as built by `__init__` (ignoring `_load_state`, i.e.
with no state file present). -/
def initState (block_threshold window_size : ℚ) (features_window : ℕ) : DetectorState :=
  ⟨block_threshold, window_size, features_window, [], [], [], ∅, ∅, ∅, 0⟩

/-- Embeds `_extract_features_for_ip`, pure part: the 10-entry feature list
`[req_rate, avg_interval, std_interval (as variance, see listVar), bytes_rate,
get_ratio, post_ratio, unique_urls, error_ratio, 4xx_ratio, max_burst]`
computed from the window contents, for a window of length ≥ 2. -/
def extractFeatures (data : List TrafficRecord) : List ℚ :=
  let timestamps := data.map (·.timestamp)
  let intervals := diffs timestamps
  let time_span0 := maxQ timestamps - minQ timestamps
  let time_span := if time_span0 < 1 / 1000 then 1 / 1000 else time_span0
  let req_rate : ℚ := (data.length : ℚ) / time_span
  let total_bytes : ℚ := (data.map fun r => (r.bytes : ℚ)).sum
  let bytes_rate : ℚ := total_bytes / time_span
  let methods := data.map (·.method)
  let get_frac : ℚ :=
    if methods = [] then 0 else (methods.count "GET" : ℚ) / methods.length
  let post_frac : ℚ :=
    if methods = [] then 0 else (methods.count "POST" : ℚ) / methods.length
  let unique_urls : ℚ := ((data.map (·.url)).dedup.length : ℚ) / data.length
  let status_codes := data.map (·.status_code)
  let error_frac : ℚ :=
    if status_codes = [] then 0
    else ((status_codes.filter fun s => decide (400 ≤ s)).length : ℚ) / status_codes.length
  let frac4xx : ℚ :=
    if status_codes = [] then 0
    else ((status_codes.filter fun s => decide (400 ≤ s ∧ s < 500)).length : ℚ) /
      status_codes.length
  let max_burst : ℚ :=
    if 1 < timestamps.length then
      let buckets := timestamps.map truncQ
      ((buckets.dedup.map fun b => buckets.count b).foldl max 0 : ℚ)
    else 1
  [req_rate,
   if intervals = [] then 0 else listMean intervals,
   if intervals = [] then 0 else listVar intervals,
   bytes_rate, get_frac, post_frac, unique_urls, error_frac, frac4xx, max_burst]

/-- Embeds `_extract_features_for_ip`: returns early when the window holds fewer than
2 records, otherwise overwrites `self.ip_features[ip]` with the vector
extracted from the current window. -/
def extractFeaturesForIp (ip : String) (s : DetectorState) : DetectorState :=
  let data := (alookup s.traffic_data ip).getD []
  if data.length < 2 then s
  else { s with ip_features := ainsert s.ip_features ip (extractFeatures data) }

/-- Body of the per-key loop of `_clean_old_data`: drop the prefix of
`ip_timestamps[ip]` strictly older than the cutoff; when everything is old,
delete the key from `ip_timestamps`, `traffic_data` and `ip_features`.
Note the source never trims `traffic_data[ip]` in the partial case. -/
def cleanStep (cutoff : ℚ) (st : DetectorState) (ip : String) : DetectorState :=
  match alookup st.ip_timestamps ip with
  | none => st
  | some ts =>
    if ts = [] then st
    else
      let rest := ts.dropWhile fun t => decide (t < cutoff)
      if rest.length = ts.length then st
      else if rest = [] then
        { st with ip_timestamps := aerase st.ip_timestamps ip,
                  traffic_data := aerase st.traffic_data ip,
                  ip_features := aerase st.ip_features ip }
      else { st with ip_timestamps := ainsert st.ip_timestamps ip rest }

/-- Embeds `_clean_old_data`, with the wall clock passed explicitly: iterate the loop
body over a snapshot of `list(self.ip_timestamps.keys())`. -/
def cleanOldData (now : ℚ) (s : DetectorState) : DetectorState :=
  (akeys s.ip_timestamps).foldl (cleanStep (now - s.window_size)) s

/-- Embeds `_block_ip`: add to `blocked_ips` when not already present (the state save
to disk is outside the model). -/
def blockIp (ip : String) (s : DetectorState) : DetectorState :=
  if ip ∈ s.blocked_ips then s
  else { s with blocked_ips := insert ip s.blocked_ips }

/-- Embeds `_check_anomaly_realtime`.  The `try` block's only failure point reachable
in the model is the `self.ip_features[ip]` lookup (a `KeyError` is caught and
the request allowed); it occurs after `model.fit`, hence after the
`trainCount` increment.  `scaler.fit_transform`, `model.fit` and
`score_samples` are absorbed into the oracle. -/
def checkAnomalyRealtime (score : Score) (ip : String) (s : DetectorState) :
    Bool × DetectorState :=
  if ip ∈ s.false_positives then (true, s)
  else
    let all_features := avalues s.ip_features
    if all_features.length < 10 then (true, s)
    else
      let s1 := { s with trainCount := s.trainCount + 1 }
      match alookup s.ip_features ip with
      | none => (true, s1)
      | some v =>
        let anomaly_score := score all_features v
        if anomaly_score > s.block_threshold then
          let s2 := { s1 with suspicious_ips := insert ip s1.suspicious_ips }
          if anomaly_score > s.block_threshold * (3 / 2) then (false, blockIp ip s2)
          else (true, s2)
        else (true, s1)

/-- The two store appends at the top of `record_request`: push the record onto
`traffic_data[ip]` (bounded deque) and the timestamp onto `ip_timestamps[ip]`.
(The source's `defaultdict` artefact of materialising an empty entry on read
is dropped: an absent key and an empty entry are indistinguishable to every
later read in the class.) -/
def storeRequest (ip : String) (timestamp : ℚ) (bytes_sent : ℤ)
    (method url : String) (status_code : ℤ) (s : DetectorState) : DetectorState :=
  let r : TrafficRecord := ⟨timestamp, bytes_sent, method, url, status_code⟩
  let win := (alookup s.traffic_data ip).getD []
  let s1 := { s with
    traffic_data := ainsert s.traffic_data ip (dequeAppend s.features_window win r) }
  let ts := (alookup s1.ip_timestamps ip).getD []
  { s1 with ip_timestamps := ainsert s1.ip_timestamps ip (ts ++ [timestamp]) }

/-- Embeds `record_request`: reject outright when blocked; otherwise store, clean,
extract features once the window holds at least `min(5, features_window)`
records, and run the real-time anomaly check when the key has a cached vector
and strictly more than 10 sources have cached vectors. -/
def recordRequest (score : Score) (now : ℚ) (ip : String) (timestamp : ℚ)
    (bytes_sent : ℤ) (method url : String) (status_code : ℤ)
    (s : DetectorState) : Bool × DetectorState :=
  if ip ∈ s.blocked_ips then (false, s)
  else
    let s2 := storeRequest ip timestamp bytes_sent method url status_code s
    let s3 := cleanOldData now s2
    if min 5 s.features_window ≤ ((alookup s3.traffic_data ip).getD []).length then
      let s4 := extractFeaturesForIp ip s3
      if alookup s4.ip_features ip ≠ none ∧ 10 < s4.ip_features.length then
        checkAnomalyRealtime score ip s4
      else (true, s4)
    else (true, s3)

/-- Body of the per-key loop of one `_periodic_analysis` iteration: skip keys
already blocked or whitelisted, otherwise apply the periodic decision policy
to the score of this key's snapshot feature row. -/
def periodicStepKey (score : Score) (snapshot : List (String × List ℚ)) (thr : ℚ)
    (st : DetectorState) (ip : String) : DetectorState :=
  if ip ∈ st.blocked_ips ∨ ip ∈ st.false_positives then st
  else
    match alookup snapshot ip with
    | none => st
    | some v =>
      let sc := score (avalues snapshot) v
      if sc > thr then
        let st1 := { st with suspicious_ips := insert ip st.suspicious_ips }
        if sc > thr * (13 / 10) then blockIp ip st1 else st1
      else st

/-- One iteration of the `_periodic_analysis` loop body (past the sleep):
skip when fewer than 5 sources have cached vectors; otherwise fit (instrumented
by `trainCount`), score every key against the snapshot population, apply the
periodic policy, then clean old data. -/
def periodicStep (score : Score) (now : ℚ) (s : DetectorState) : DetectorState :=
  if s.ip_features.length < 5 then s
  else
    let s1 := { s with trainCount := s.trainCount + 1 }
    let s2 := (akeys s.ip_features).foldl
      (periodicStepKey score s.ip_features s.block_threshold) s1
    cleanOldData now s2

/-- Embeds `unblock_ip`. -/
def unblockIp (ip : String) (mark_as_false_positive : Bool) (s : DetectorState) :
    Bool × DetectorState :=
  if ip ∈ s.blocked_ips then
    let s1 := { s with blocked_ips := s.blocked_ips.erase ip }
    let s2 :=
      if mark_as_false_positive then
        { s1 with false_positives := insert ip s1.false_positives }
      else s1
    (true, s2)
  else (false, s)

/-- The dictionary returned by `get_status`. -/
structure Status where
  blocked_ips : Finset String
  suspicious_ips : Finset String
  monitoring_ips : ℕ
  false_positives : Finset String
deriving DecidableEq

/-- Embeds `get_status`: note `monitoring_ips` is `len(self.ip_features)`. -/
def getStatus (s : DetectorState) : Status :=
  ⟨s.blocked_ips, s.suspicious_ips, s.ip_features.length, s.false_positives⟩

/-! ### Association-list lemmas -/

theorem alookup_ainsert_self {α : Type} (m : List (String × α)) (k : String) (v : α) :
    alookup (ainsert m k v) k = some v := by
  induction m with
  | nil => simp [ainsert, alookup]
  | cons p rest ih =>
    obtain ⟨k', w⟩ := p
    by_cases h : k' = k <;> simp [ainsert, alookup, h, ih]

theorem alookup_ainsert_ne {α : Type} (m : List (String × α)) (k ip : String) (v : α)
    (h : k ≠ ip) : alookup (ainsert m k v) ip = alookup m ip := by
  induction m with
  | nil => simp [ainsert, alookup, h]
  | cons p rest ih =>
    obtain ⟨k', w⟩ := p
    by_cases h' : k' = k
    · subst h'
      simp [ainsert, alookup, h]
    · simp [ainsert, alookup, h', ih]

theorem alookup_aerase_ne {α : Type} (m : List (String × α)) (k ip : String)
    (h : k ≠ ip) : alookup (aerase m k) ip = alookup m ip := by
  induction m with
  | nil => simp [aerase, alookup]
  | cons p rest ih =>
    obtain ⟨k', w⟩ := p
    by_cases h' : k' = k
    · subst h'
      simp [aerase, alookup, h]
    · simp [aerase, alookup, h', ih]

theorem mem_akeys_of_alookup {α : Type} (m : List (String × α)) (ip : String) (v : α)
    (h : alookup m ip = some v) : ip ∈ akeys m := by
  induction m with
  | nil => simp [alookup] at h
  | cons p rest ih =>
    obtain ⟨k', w⟩ := p
    by_cases h' : k' = ip
    · simp [akeys, h']
    · simp [alookup, h'] at h
      simp [akeys] at ih ⊢
      right
      simpa [akeys] using ih h

/-! ### Frame lemmas: which fields each operation can touch -/

/-- Lemma: `cleanStep` never touches the decision registry, the counter or the
configuration. -/
theorem cleanStep_frame (c : ℚ) (st : DetectorState) (ip : String) :
    (cleanStep c st ip).blocked_ips = st.blocked_ips ∧
    (cleanStep c st ip).suspicious_ips = st.suspicious_ips ∧
    (cleanStep c st ip).false_positives = st.false_positives ∧
    (cleanStep c st ip).trainCount = st.trainCount ∧
    (cleanStep c st ip).block_threshold = st.block_threshold ∧
    (cleanStep c st ip).window_size = st.window_size ∧
    (cleanStep c st ip).features_window = st.features_window := by
  unfold cleanStep
  split
  · exact ⟨rfl, rfl, rfl, rfl, rfl, rfl, rfl⟩
  · split
    · exact ⟨rfl, rfl, rfl, rfl, rfl, rfl, rfl⟩
    · dsimp only
      split
      · exact ⟨rfl, rfl, rfl, rfl, rfl, rfl, rfl⟩
      · split <;> exact ⟨rfl, rfl, rfl, rfl, rfl, rfl, rfl⟩

/-- Fold form of `cleanStep_frame`. -/
theorem cleanFold_frame (c : ℚ) (l : List String) (st : DetectorState) :
    ((l.foldl (cleanStep c) st).blocked_ips = st.blocked_ips ∧
     (l.foldl (cleanStep c) st).suspicious_ips = st.suspicious_ips ∧
     (l.foldl (cleanStep c) st).false_positives = st.false_positives ∧
     (l.foldl (cleanStep c) st).trainCount = st.trainCount ∧
     (l.foldl (cleanStep c) st).block_threshold = st.block_threshold ∧
     (l.foldl (cleanStep c) st).window_size = st.window_size ∧
     (l.foldl (cleanStep c) st).features_window = st.features_window) := by
  induction l generalizing st with
  | nil => exact ⟨rfl, rfl, rfl, rfl, rfl, rfl, rfl⟩
  | cons k rest ih =>
    have h1 := cleanStep_frame c st k
    have h2 := ih (cleanStep c st k)
    simp only [List.foldl_cons]
    refine ⟨?_, ?_, ?_, ?_, ?_, ?_, ?_⟩ <;>
      first
      | exact h2.1.trans h1.1
      | exact h2.2.1.trans h1.2.1
      | exact h2.2.2.1.trans h1.2.2.1
      | exact h2.2.2.2.1.trans h1.2.2.2.1
      | exact h2.2.2.2.2.1.trans h1.2.2.2.2.1
      | exact h2.2.2.2.2.2.1.trans h1.2.2.2.2.2.1
      | exact h2.2.2.2.2.2.2.trans h1.2.2.2.2.2.2

/-- Lemma: `_clean_old_data` never touches the decision registry, the counter or the
configuration. -/
theorem cleanOldData_frame (now : ℚ) (s : DetectorState) :
    (cleanOldData now s).blocked_ips = s.blocked_ips ∧
    (cleanOldData now s).suspicious_ips = s.suspicious_ips ∧
    (cleanOldData now s).false_positives = s.false_positives ∧
    (cleanOldData now s).trainCount = s.trainCount ∧
    (cleanOldData now s).block_threshold = s.block_threshold ∧
    (cleanOldData now s).window_size = s.window_size ∧
    (cleanOldData now s).features_window = s.features_window :=
  cleanFold_frame (now - s.window_size) (akeys s.ip_timestamps) s

/-- Lemma: `storeRequest` only touches `traffic_data` and `ip_timestamps`. -/
theorem storeRequest_frame (ip : String) (t : ℚ) (b : ℤ) (me u : String) (c : ℤ)
    (s : DetectorState) :
    (storeRequest ip t b me u c s).ip_features = s.ip_features ∧
    (storeRequest ip t b me u c s).blocked_ips = s.blocked_ips ∧
    (storeRequest ip t b me u c s).suspicious_ips = s.suspicious_ips ∧
    (storeRequest ip t b me u c s).false_positives = s.false_positives ∧
    (storeRequest ip t b me u c s).trainCount = s.trainCount ∧
    (storeRequest ip t b me u c s).block_threshold = s.block_threshold ∧
    (storeRequest ip t b me u c s).window_size = s.window_size ∧
    (storeRequest ip t b me u c s).features_window = s.features_window :=
  ⟨rfl, rfl, rfl, rfl, rfl, rfl, rfl, rfl⟩

/-- Lemma: `_extract_features_for_ip` only touches `ip_features`. -/
theorem extractFeaturesForIp_frame (ip : String) (s : DetectorState) :
    (extractFeaturesForIp ip s).traffic_data = s.traffic_data ∧
    (extractFeaturesForIp ip s).ip_timestamps = s.ip_timestamps ∧
    (extractFeaturesForIp ip s).blocked_ips = s.blocked_ips ∧
    (extractFeaturesForIp ip s).suspicious_ips = s.suspicious_ips ∧
    (extractFeaturesForIp ip s).false_positives = s.false_positives ∧
    (extractFeaturesForIp ip s).trainCount = s.trainCount ∧
    (extractFeaturesForIp ip s).block_threshold = s.block_threshold ∧
    (extractFeaturesForIp ip s).window_size = s.window_size ∧
    (extractFeaturesForIp ip s).features_window = s.features_window := by
  unfold extractFeaturesForIp
  dsimp only
  split <;> exact ⟨rfl, rfl, rfl, rfl, rfl, rfl, rfl, rfl, rfl⟩

/-- Lemma: `blockIp` only inserts into `blocked_ips`. -/
theorem blockIp_frame (ip : String) (s : DetectorState) :
    (blockIp ip s).suspicious_ips = s.suspicious_ips ∧
    (blockIp ip s).false_positives = s.false_positives ∧
    (blockIp ip s).trainCount = s.trainCount ∧
    (blockIp ip s).blocked_ips = insert ip s.blocked_ips := by
  unfold blockIp
  split
  · next h => exact ⟨rfl, rfl, rfl, (Finset.insert_eq_self.mpr h).symm⟩
  · exact ⟨rfl, rfl, rfl, rfl⟩

/-- Lemma: `periodicStepKey` only touches `suspicious_ips` and `blocked_ips`. -/
theorem periodicStepKey_frame (score : Score) (snap : List (String × List ℚ)) (thr : ℚ)
    (st : DetectorState) (k : String) :
    (periodicStepKey score snap thr st k).false_positives = st.false_positives ∧
    (periodicStepKey score snap thr st k).trainCount = st.trainCount ∧
    (periodicStepKey score snap thr st k).ip_features = st.ip_features ∧
    (periodicStepKey score snap thr st k).traffic_data = st.traffic_data ∧
    (periodicStepKey score snap thr st k).ip_timestamps = st.ip_timestamps := by
  unfold periodicStepKey blockIp
  split
  · exact ⟨rfl, rfl, rfl, rfl, rfl⟩
  · split
    · exact ⟨rfl, rfl, rfl, rfl, rfl⟩
    · dsimp only
      split
      · split <;> [skip; exact ⟨rfl, rfl, rfl, rfl, rfl⟩]
        split <;> exact ⟨rfl, rfl, rfl, rfl, rfl⟩
      · exact ⟨rfl, rfl, rfl, rfl, rfl⟩

/-- Lemma: `periodicStepKey` can only insert the processed key itself: membership of
any other key in the two mutable sets is untouched. -/
theorem periodicStepKey_other (score : Score) (snap : List (String × List ℚ)) (thr : ℚ)
    (st : DetectorState) (k ip : String) (hne : k ≠ ip) :
    ((ip ∈ (periodicStepKey score snap thr st k).suspicious_ips ↔ ip ∈ st.suspicious_ips) ∧
     (ip ∈ (periodicStepKey score snap thr st k).blocked_ips ↔ ip ∈ st.blocked_ips)) := by
  unfold periodicStepKey blockIp
  split
  · exact ⟨Iff.rfl, Iff.rfl⟩
  · split
    · exact ⟨Iff.rfl, Iff.rfl⟩
    · dsimp only
      split
      · split
        · split <;> simp [Finset.mem_insert, hne.symm]
        · simp [Finset.mem_insert, hne.symm]
      · exact ⟨Iff.rfl, Iff.rfl⟩

/-- Lemma: `periodicStepKey` never removes from the two mutable sets. -/
theorem periodicStepKey_mono (score : Score) (snap : List (String × List ℚ)) (thr : ℚ)
    (st : DetectorState) (k : String) :
    st.suspicious_ips ⊆ (periodicStepKey score snap thr st k).suspicious_ips ∧
    st.blocked_ips ⊆ (periodicStepKey score snap thr st k).blocked_ips := by
  unfold periodicStepKey blockIp
  split
  · exact ⟨Finset.Subset.refl _, Finset.Subset.refl _⟩
  · split
    · exact ⟨Finset.Subset.refl _, Finset.Subset.refl _⟩
    · dsimp only
      split_ifs <;>
        refine ⟨?_, ?_⟩ <;>
          first
            | exact Finset.Subset.refl _
            | exact Finset.subset_insert _ _

/-- Fold form of `periodicStepKey_frame`. -/
theorem periodicFold_frame (score : Score) (snap : List (String × List ℚ)) (thr : ℚ)
    (l : List String) (st : DetectorState) :
    ((l.foldl (periodicStepKey score snap thr) st).false_positives = st.false_positives ∧
     (l.foldl (periodicStepKey score snap thr) st).trainCount = st.trainCount) := by
  induction l generalizing st with
  | nil => exact ⟨rfl, rfl⟩
  | cons k rest ih =>
    have h1 := periodicStepKey_frame score snap thr st k
    have h2 := ih (periodicStepKey score snap thr st k)
    exact ⟨h2.1.trans h1.1, h2.2.trans h1.2.1⟩

/-- A key not occurring in the processed list keeps its memberships across the
periodic fold. -/
theorem periodicFold_not_mem (score : Score) (snap : List (String × List ℚ)) (thr : ℚ)
    (l : List String) (ip : String) (hip : ip ∉ l) (st : DetectorState) :
    ((ip ∈ (l.foldl (periodicStepKey score snap thr) st).suspicious_ips ↔
        ip ∈ st.suspicious_ips) ∧
     (ip ∈ (l.foldl (periodicStepKey score snap thr) st).blocked_ips ↔
        ip ∈ st.blocked_ips)) := by
  induction l generalizing st with
  | nil => exact ⟨Iff.rfl, Iff.rfl⟩
  | cons k rest ih =>
    have hne : k ≠ ip := fun h => hip (h ▸ List.mem_cons_self k rest)
    have hrest : ip ∉ rest := fun h => hip (List.mem_cons_of_mem k h)
    have h1 := periodicStepKey_other score snap thr st k ip hne
    have h2 := ih hrest (periodicStepKey score snap thr st k)
    exact ⟨h2.1.trans h1.1, h2.2.trans h1.2⟩

/-- A key in `false_positives` keeps its memberships across the periodic fold:
its own iteration is skipped, and other iterations touch only their own key. -/
theorem periodicFold_fp (score : Score) (snap : List (String × List ℚ)) (thr : ℚ)
    (l : List String) (ip : String) (st : DetectorState)
    (hfp : ip ∈ st.false_positives) :
    ((ip ∈ (l.foldl (periodicStepKey score snap thr) st).suspicious_ips ↔
        ip ∈ st.suspicious_ips) ∧
     (ip ∈ (l.foldl (periodicStepKey score snap thr) st).blocked_ips ↔
        ip ∈ st.blocked_ips)) := by
  induction l generalizing st with
  | nil => exact ⟨Iff.rfl, Iff.rfl⟩
  | cons k rest ih =>
    by_cases hk : k = ip
    · subst hk
      have hskip : periodicStepKey score snap thr st k = st := by
        unfold periodicStepKey
        rw [if_pos (Or.inr hfp)]
      simp only [List.foldl_cons, hskip]
      exact ih st hfp
    · have h1 := periodicStepKey_other score snap thr st k ip hk
      have hfp' : ip ∈ (periodicStepKey score snap thr st k).false_positives :=
        (periodicStepKey_frame score snap thr st k).1.symm ▸ hfp
      have h2 := ih (periodicStepKey score snap thr st k) hfp'
      exact ⟨h2.1.trans h1.1, h2.2.trans h1.2⟩

/-- Fold form of `periodicStepKey_mono`. -/
theorem periodicFold_mono (score : Score) (snap : List (String × List ℚ)) (thr : ℚ)
    (l : List String) (st : DetectorState) :
    st.suspicious_ips ⊆ (l.foldl (periodicStepKey score snap thr) st).suspicious_ips ∧
    st.blocked_ips ⊆ (l.foldl (periodicStepKey score snap thr) st).blocked_ips := by
  induction l generalizing st with
  | nil => exact ⟨Finset.Subset.refl _, Finset.Subset.refl _⟩
  | cons k rest ih =>
    have h1 := periodicStepKey_mono score snap thr st k
    have h2 := ih (periodicStepKey score snap thr st k)
    exact ⟨h1.1.trans h2.1, h1.2.trans h2.2⟩

/-- Evaluation of the periodic fold at a key that occurs exactly once in the
processed list, is not blocked or whitelisted, and has a snapshot feature row:
afterwards it is suspicious iff its score exceeds the threshold (or it already
was), and blocked iff its score additionally exceeds 1.3 times the threshold. -/
theorem periodicFold_eval (score : Score) (snap : List (String × List ℚ)) (thr : ℚ)
    (l1 l2 : List String) (ip : String) (v : List ℚ) (st : DetectorState)
    (h1 : ip ∉ l1) (h2 : ip ∉ l2)
    (hnb : ip ∉ st.blocked_ips) (hnfp : ip ∉ st.false_positives)
    (hv : alookup snap ip = some v) :
    ((ip ∈ ((l1 ++ ip :: l2).foldl (periodicStepKey score snap thr) st).suspicious_ips ↔
        (thr < score (avalues snap) v ∨ ip ∈ st.suspicious_ips)) ∧
     (ip ∈ ((l1 ++ ip :: l2).foldl (periodicStepKey score snap thr) st).blocked_ips ↔
        (thr < score (avalues snap) v ∧ thr * (13 / 10) < score (avalues snap) v))) := by
  rw [List.foldl_append]
  set st1 := l1.foldl (periodicStepKey score snap thr) st with hst1
  have hpre := periodicFold_not_mem score snap thr l1 ip h1 st
  have hfppre := (periodicFold_frame score snap thr l1 st).1
  have hnb1 : ip ∉ st1.blocked_ips := fun h => hnb (hpre.2.mp h)
  have hnfp1 : ip ∉ st1.false_positives := fun h => hnfp (hfppre ▸ h)
  simp only [List.foldl_cons]
  have hstep : periodicStepKey score snap thr st1 ip =
      (if thr < score (avalues snap) v then
        let st2 := { st1 with suspicious_ips := insert ip st1.suspicious_ips }
        if thr * (13 / 10) < score (avalues snap) v then blockIp ip st2 else st2
      else st1) := by
    unfold periodicStepKey
    rw [if_neg (by simp [hnb1, hnfp1]), hv]
  rw [hstep]
  by_cases hsc : thr < score (avalues snap) v
  · rw [if_pos hsc]
    by_cases hsc2 : thr * (13 / 10) < score (avalues snap) v
    · rw [if_pos hsc2]
      have hb := blockIp_frame ip { st1 with suspicious_ips := insert ip st1.suspicious_ips }
      have hpost := periodicFold_not_mem score snap thr l2 ip h2
        (blockIp ip { st1 with suspicious_ips := insert ip st1.suspicious_ips })
      constructor
      · rw [hpost.1, hb.1]
        simp [hsc]
      · rw [hpost.2, hb.2.2.2]
        simp [hsc, hsc2]
    · rw [if_neg hsc2]
      have hpost := periodicFold_not_mem score snap thr l2 ip h2
        { st1 with suspicious_ips := insert ip st1.suspicious_ips }
      constructor
      · rw [hpost.1]
        simp [hsc]
      · rw [hpost.2]
        simp [hsc2, hnb1]
  · rw [if_neg hsc]
    have hpost := periodicFold_not_mem score snap thr l2 ip h2 st1
    constructor
    · rw [hpost.1, hpre.1]
      simp [hsc]
    · rw [hpost.2]
      simp [hsc, hnb1]

/-- Lemma: `_check_anomaly_realtime` on a whitelisted key: allow, nothing happens. -/
theorem checkAnomaly_fp (score : Score) (ip : String) (s : DetectorState)
    (hfp : ip ∈ s.false_positives) :
    checkAnomalyRealtime score ip s = (true, s) := by
  unfold checkAnomalyRealtime
  rw [if_pos hfp]

/-- Lemma: `_check_anomaly_realtime` never removes from `suspicious_ips` or
`blocked_ips`, and never touches `false_positives` or the stores. -/
theorem checkAnomaly_mono (score : Score) (ip : String) (s : DetectorState) :
    s.suspicious_ips ⊆ (checkAnomalyRealtime score ip s).2.suspicious_ips ∧
    s.blocked_ips ⊆ (checkAnomalyRealtime score ip s).2.blocked_ips ∧
    (checkAnomalyRealtime score ip s).2.false_positives = s.false_positives := by
  unfold checkAnomalyRealtime blockIp
  repeat' first
    | split
    | dsimp only
  all_goals
    refine ⟨?_, ?_, rfl⟩ <;>
      first
        | exact Finset.Subset.refl _
        | exact Finset.subset_insert _ _

/-! ### Concrete states used as inputs for counterexamples and witnesses -/

/-- A plain request record used in concrete test states. -/
def sampleRecord (t : ℚ) : TrafficRecord := ⟨t, 100, "GET", "/", 200⟩

/-- State with one tracked source whose window holds a stale record
(timestamp 0) and two fresh ones (399, 400), `window_size` 300. -/
def c1State : DetectorState :=
  { initState 1 300 100 with
    traffic_data := [("a", [sampleRecord 0, sampleRecord 399, sampleRecord 400])],
    ip_timestamps := [("a", [0, 399, 400])] }

/-- C1: pruning at `now = 400` (cutoff 100) drops the stale timestamp from
`ip_timestamps` but leaves the stale record with timestamp `0 < 100` inside
`traffic_data` — the window feature extraction reads — so a subsequent
extraction still computes its features from the stale record, and those
features differ from the ones the fresh records alone would give.  This
contradicts both the spec's prune contract and the function's own
documentation ("Remove data older than window_size seconds"). -/
theorem C1_prune_keeps_stale_record :
    (sampleRecord 0).timestamp < 400 - c1State.window_size ∧
    alookup (cleanOldData 400 c1State).traffic_data "a"
      = some [sampleRecord 0, sampleRecord 399, sampleRecord 400] ∧
    alookup (cleanOldData 400 c1State).ip_timestamps "a" = some [399, 400] ∧
    alookup (extractFeaturesForIp "a" (cleanOldData 400 c1State)).ip_features "a"
      = some (extractFeatures [sampleRecord 0, sampleRecord 399, sampleRecord 400]) ∧
    extractFeatures [sampleRecord 0, sampleRecord 399, sampleRecord 400]
      ≠ extractFeatures [sampleRecord 399, sampleRecord 400] := by
  norm_num [c1State, initState, cleanOldData, cleanStep, akeys, alookup, ainsert, aerase,
    extractFeaturesForIp, extractFeatures, sampleRecord, diffs, maxQ, minQ, listMean,
    listVar, truncQ]

/-- C2: a blocked key short-circuits `record_request`: the call returns
`false` and the whole state — in particular the key's window — is unchanged. -/
theorem C2_blocked_short_circuit (score : Score) (now t : ℚ) (ip : String)
    (b : ℤ) (me u : String) (c : ℤ) (s : DetectorState) (h : ip ∈ s.blocked_ips) :
    recordRequest score now ip t b me u c s = (false, s) := by
  unfold recordRequest
  rw [if_pos h]

/-- State with one blocked source, used to witness C2. -/
def c2State : DetectorState :=
  { initState 1 300 100 with blocked_ips := {"a"} }

theorem C2_blocked_short_circuit_witness :
    recordRequest (fun _ _ => 0) 0 "a" 0 100 "GET" "/" 200 c2State = (false, c2State) :=
  C2_blocked_short_circuit (fun _ _ => 0) 0 0 "a" 100 "GET" "/" 200 c2State (by decide)

/-- C9: `unblock_ip` returns `true` exactly when the key was blocked;
afterwards the key is never blocked; marking as false positive takes effect
only when the key was blocked; on a non-blocked key the call returns `false`
and leaves the state untouched. -/
theorem C9_unblock_reversibility (ip : String) (mark : Bool) (s : DetectorState) :
    ((unblockIp ip mark s).1 = true ↔ ip ∈ s.blocked_ips) ∧
    ip ∉ (unblockIp ip mark s).2.blocked_ips ∧
    (mark = true → ip ∈ s.blocked_ips →
      ip ∈ (unblockIp ip mark s).2.false_positives) ∧
    (ip ∉ s.blocked_ips → unblockIp ip mark s = (false, s)) := by
  unfold unblockIp
  by_cases h : ip ∈ s.blocked_ips
  · rw [if_pos h]
    refine ⟨by simp [h], ?_, ?_, fun hn => absurd h hn⟩
    · cases mark <;> simp [Finset.not_mem_erase]
    · intro hm _
      subst hm
      simp
  · rw [if_neg h]
    exact ⟨by simp [h], h, fun _ hb => absurd hb h, fun _ => rfl⟩

/-- State with one blocked source, used to witness C9. -/
def c9State : DetectorState :=
  { initState 1 300 100 with blocked_ips := {"a"} }

theorem C9_unblock_reversibility_witness :
    (unblockIp "a" true c9State).1 = true ∧
    "a" ∉ (unblockIp "a" true c9State).2.blocked_ips ∧
    "a" ∈ (unblockIp "a" true c9State).2.false_positives :=
  ⟨(C9_unblock_reversibility "a" true c9State).1.mpr (by decide),
   (C9_unblock_reversibility "a" true c9State).2.1,
   (C9_unblock_reversibility "a" true c9State).2.2.1 rfl (by decide)⟩

/-- C10: no operation of the detector removes a key from `suspicious_ips`:
the set only grows under `record_request`, `unblock_ip`, the periodic sweep
and the eviction sweep. -/
theorem C10_suspicious_monotone (score : Score) (now now2 t : ℚ) (ip ip2 : String)
    (b : ℤ) (me u : String) (c : ℤ) (mark : Bool) (s : DetectorState) :
    s.suspicious_ips ⊆ (recordRequest score now ip t b me u c s).2.suspicious_ips ∧
    s.suspicious_ips ⊆ (unblockIp ip2 mark s).2.suspicious_ips ∧
    s.suspicious_ips ⊆ (periodicStep score now2 s).suspicious_ips ∧
    s.suspicious_ips ⊆ (cleanOldData now s).suspicious_ips := by
  refine ⟨?_, ?_, ?_, ?_⟩
  · unfold recordRequest
    split
    · exact Finset.Subset.refl _
    · dsimp only
      have hstore := (storeRequest_frame ip t b me u c s).2.2.1
      have hclean := (cleanOldData_frame now (storeRequest ip t b me u c s)).2.1
      have hext := (extractFeaturesForIp_frame ip
        (cleanOldData now (storeRequest ip t b me u c s))).2.2.2.1
      have hchk := (checkAnomaly_mono score ip (extractFeaturesForIp ip
        (cleanOldData now (storeRequest ip t b me u c s)))).1
      split
      · split
        · intro a ha
          apply hchk
          rw [hext, hclean, hstore]
          exact ha
        · intro a ha
          rw [hext, hclean, hstore]
          exact ha
      · intro a ha
        rw [hclean, hstore]
        exact ha
  · unfold unblockIp
    by_cases h : ip2 ∈ s.blocked_ips
    · rw [if_pos h]
      cases mark <;> exact Finset.Subset.refl _
    · rw [if_neg h]
  · unfold periodicStep
    split
    · exact Finset.Subset.refl _
    · dsimp only
      intro a ha
      rw [(cleanOldData_frame now2 _).2.1]
      exact (periodicFold_mono score s.ip_features s.block_threshold
        (akeys s.ip_features) { s with trainCount := s.trainCount + 1 }).1 ha
  · intro a ha
    rw [(cleanOldData_frame now s).2.1]
    exact ha

theorem C10_suspicious_monotone_witness :
    ({ initState 1 300 100 with suspicious_ips := {"a"} } : DetectorState).suspicious_ips ⊆
      (recordRequest (fun _ _ => 0) 0 "b" 0 100 "GET" "/" 200
        { initState 1 300 100 with suspicious_ips := {"a"} }).2.suspicious_ips :=
  (C10_suspicious_monotone (fun _ _ => 0) 0 0 0 "b" "x" 100 "GET" "/" 200 false
    { initState 1 300 100 with suspicious_ips := {"a"} }).1

/-- C3: a whitelisted (false-positive) key that is not blocked is always
allowed by `record_request`, which leaves `suspicious_ips` and `blocked_ips`
untouched; and the periodic sweep never changes such a key's suspicious or
blocked membership either. -/
theorem C3_false_positive_override (score : Score) (now now2 t : ℚ) (ip : String)
    (b : ℤ) (me u : String) (c : ℤ) (s : DetectorState)
    (hfp : ip ∈ s.false_positives) (hnb : ip ∉ s.blocked_ips) :
    (recordRequest score now ip t b me u c s).1 = true ∧
    (recordRequest score now ip t b me u c s).2.suspicious_ips = s.suspicious_ips ∧
    (recordRequest score now ip t b me u c s).2.blocked_ips = s.blocked_ips ∧
    (ip ∈ (periodicStep score now2 s).suspicious_ips ↔ ip ∈ s.suspicious_ips) ∧
    (ip ∈ (periodicStep score now2 s).blocked_ips ↔ ip ∈ s.blocked_ips) := by
  have hstore := storeRequest_frame ip t b me u c s
  have hclean := cleanOldData_frame now (storeRequest ip t b me u c s)
  have hext := extractFeaturesForIp_frame ip
    (cleanOldData now (storeRequest ip t b me u c s))
  have hfp4 : ip ∈ (extractFeaturesForIp ip
      (cleanOldData now (storeRequest ip t b me u c s))).false_positives := by
    rw [hext.2.2.2.2.1, hclean.2.2.1, hstore.2.2.2.1]
    exact hfp
  refine ⟨?_, ?_, ?_, ?_, ?_⟩
  · unfold recordRequest
    rw [if_neg hnb]
    dsimp only
    split
    · split
      · rw [checkAnomaly_fp score ip _ hfp4]
      · rfl
    · rfl
  · unfold recordRequest
    rw [if_neg hnb]
    dsimp only
    split
    · split
      · rw [checkAnomaly_fp score ip _ hfp4]
        dsimp only
        rw [hext.2.2.2.1, hclean.2.1, hstore.2.2.1]
      · dsimp only
        rw [hext.2.2.2.1, hclean.2.1, hstore.2.2.1]
    · dsimp only
      rw [hclean.2.1, hstore.2.2.1]
  · unfold recordRequest
    rw [if_neg hnb]
    dsimp only
    split
    · split
      · rw [checkAnomaly_fp score ip _ hfp4]
        dsimp only
        rw [hext.2.2.1, hclean.1, hstore.2.1]
      · dsimp only
        rw [hext.2.2.1, hclean.1, hstore.2.1]
    · dsimp only
      rw [hclean.1, hstore.2.1]
  · unfold periodicStep
    split
    · exact Iff.rfl
    · dsimp only
      have hfold := periodicFold_fp score s.ip_features s.block_threshold
        (akeys s.ip_features) ip { s with trainCount := s.trainCount + 1 } hfp
      rw [(cleanOldData_frame now2 _).2.1]
      exact hfold.1
  · unfold periodicStep
    split
    · exact Iff.rfl
    · dsimp only
      have hfold := periodicFold_fp score s.ip_features s.block_threshold
        (akeys s.ip_features) ip { s with trainCount := s.trainCount + 1 } hfp
      rw [(cleanOldData_frame now2 _).1]
      exact hfold.2

/-- State with one whitelisted source, used to witness C3. -/
def c3State : DetectorState :=
  { initState 1 300 100 with false_positives := {"a"} }

theorem C3_false_positive_override_witness :
    (recordRequest (fun _ _ => 1000) 0 "a" 0 100 "GET" "/" 200 c3State).1 = true ∧
    (recordRequest (fun _ _ => 1000) 0 "a" 0 100 "GET" "/" 200 c3State).2.blocked_ips
      = c3State.blocked_ips :=
  ⟨(C3_false_positive_override (fun _ _ => 1000) 0 0 0 "a" 100 "GET" "/" 200 c3State
      (by decide) (by decide)).1,
   (C3_false_positive_override (fun _ _ => 1000) 0 0 0 "a" 100 "GET" "/" 200 c3State
      (by decide) (by decide)).2.2.1⟩

/-- Lemma: `cleanStep` on another key never changes this key's three entries. -/
theorem cleanStep_other (c : ℚ) (st : DetectorState) (k ip : String) (hk : k ≠ ip) :
    (alookup (cleanStep c st k).ip_timestamps ip = alookup st.ip_timestamps ip ∧
     alookup (cleanStep c st k).traffic_data ip = alookup st.traffic_data ip ∧
     alookup (cleanStep c st k).ip_features ip = alookup st.ip_features ip) := by
  unfold cleanStep
  split
  · exact ⟨rfl, rfl, rfl⟩
  · split
    · exact ⟨rfl, rfl, rfl⟩
    · dsimp only
      split
      · exact ⟨rfl, rfl, rfl⟩
      · split
        · exact ⟨alookup_aerase_ne _ _ _ hk, alookup_aerase_ne _ _ _ hk,
            alookup_aerase_ne _ _ _ hk⟩
        · exact ⟨alookup_ainsert_ne _ _ _ _ hk, rfl, rfl⟩

/-- Lemma: `cleanStep` keeps the entries of a key whose timestamp list survives the
cutoff unchanged (whether processing that key or any other). -/
theorem cleanStep_entry (c : ℚ) (k ip : String) (ts : List ℚ) (w : List TrafficRecord)
    (hkeep : ts.dropWhile (fun t => decide (t < c)) = ts)
    (st : DetectorState) (h1 : alookup st.ip_timestamps ip = some ts)
    (h2 : alookup st.traffic_data ip = some w)
    (h3 : alookup st.ip_features ip = none) :
    (alookup (cleanStep c st k).ip_timestamps ip = some ts ∧
     alookup (cleanStep c st k).traffic_data ip = some w ∧
     alookup (cleanStep c st k).ip_features ip = none) := by
  by_cases hk : k = ip
  · subst hk
    have hstep : cleanStep c st k = st := by
      unfold cleanStep
      rw [h1]
      dsimp only
      by_cases hts : ts = []
      · rw [if_pos hts]
      · rw [if_neg hts, hkeep, if_pos rfl]
    rw [hstep]
    exact ⟨h1, h2, h3⟩
  · have ho := cleanStep_other c st k ip hk
    exact ⟨ho.1.trans h1, ho.2.1.trans h2, ho.2.2.trans h3⟩

/-- Fold form of `cleanStep_entry`. -/
theorem cleanFold_entry (c : ℚ) (l : List String) (ip : String) (ts : List ℚ)
    (w : List TrafficRecord)
    (hkeep : ts.dropWhile (fun t => decide (t < c)) = ts) :
    ∀ st : DetectorState, alookup st.ip_timestamps ip = some ts →
      alookup st.traffic_data ip = some w →
      alookup st.ip_features ip = none →
      (alookup (l.foldl (cleanStep c) st).ip_timestamps ip = some ts ∧
       alookup (l.foldl (cleanStep c) st).traffic_data ip = some w ∧
       alookup (l.foldl (cleanStep c) st).ip_features ip = none) := by
  induction l with
  | nil => exact fun st h1 h2 h3 => ⟨h1, h2, h3⟩
  | cons k rest ih =>
    intro st h1 h2 h3
    simp only [List.foldl_cons]
    have hs := cleanStep_entry c k ip ts w hkeep st h1 h2 h3
    exact ih (cleanStep c st k) hs.1 hs.2.1 hs.2.2

/-- C8 counterexample: from the empty state, a single request makes the
source tracked (`ip_timestamps` has it, its window has not aged out), yet
`get_status` reports a count of 0, because it counts `ip_features`, which the
source only enters after `min(5, features_window)` records. -/
theorem C8_counterexample :
    (recordRequest (fun _ _ => 0) 0 "b" 0 100 "GET" "/" 200 (initState 1 300 100)).1
      = true ∧
    akeys (recordRequest (fun _ _ => 0) 0 "b" 0 100 "GET" "/" 200
      (initState 1 300 100)).2.ip_timestamps = ["b"] ∧
    (getStatus (recordRequest (fun _ _ => 0) 0 "b" 0 100 "GET" "/" 200
      (initState 1 300 100)).2).monitoring_ips = 0 := by
  norm_num [recordRequest, storeRequest, cleanOldData, cleanStep, extractFeaturesForIp,
    initState, getStatus, akeys, alookup, ainsert, aerase, dequeAppend]

/-- C8 amended: `status().trackedCount` equals the number of sources with a
cached feature vector (`len(ip_features)`), not the number of tracked
sources: a fresh source's first in-window record makes it tracked (it enters
`ip_timestamps` and survives the prune) while it stays absent from
`ip_features` and hence uncounted. -/
theorem C8_tracked_vs_monitoring (score : Score) (now t : ℚ) (ip : String)
    (b : ℤ) (me u : String) (c : ℤ) (s : DetectorState)
    (hnb : ip ∉ s.blocked_ips)
    (h2 : alookup s.traffic_data ip = none)
    (h3 : alookup s.ip_timestamps ip = none)
    (h4 : alookup s.ip_features ip = none)
    (h5 : ¬ t < now - s.window_size)
    (h6 : 2 ≤ min 5 s.features_window) :
    (recordRequest score now ip t b me u c s).1 = true ∧
    alookup (recordRequest score now ip t b me u c s).2.ip_timestamps ip = some [t] ∧
    alookup (recordRequest score now ip t b me u c s).2.ip_features ip = none ∧
    (getStatus (recordRequest score now ip t b me u c s).2).monitoring_ips
      = (recordRequest score now ip t b me u c s).2.ip_features.length := by
  have hfw : 2 ≤ s.features_window := le_trans h6 (min_le_right _ _)
  have hfw1 : ¬ (s.features_window < 1) := by omega
  have hs2t : alookup (storeRequest ip t b me u c s).ip_timestamps ip = some [t] := by
    simp [storeRequest, h3, alookup_ainsert_self]
  have hs2w : alookup (storeRequest ip t b me u c s).traffic_data ip
      = some [⟨t, b, me, u, c⟩] := by
    simp [storeRequest, h2, alookup_ainsert_self, dequeAppend, hfw1]
  have hs2f : alookup (storeRequest ip t b me u c s).ip_features ip = none := h4
  have hkeep : ([t] : List ℚ).dropWhile
      (fun x => decide (x < now - (storeRequest ip t b me u c s).window_size)) = [t] := by
    have hw : (storeRequest ip t b me u c s).window_size = s.window_size := rfl
    simp [List.dropWhile_cons, hw, h5]
  have hclean : (alookup (cleanOldData now (storeRequest ip t b me u c s)).ip_timestamps ip
        = some [t] ∧
      alookup (cleanOldData now (storeRequest ip t b me u c s)).traffic_data ip
        = some [⟨t, b, me, u, c⟩] ∧
      alookup (cleanOldData now (storeRequest ip t b me u c s)).ip_features ip = none) :=
    cleanFold_entry (now - (storeRequest ip t b me u c s).window_size)
      (akeys (storeRequest ip t b me u c s).ip_timestamps) ip [t] [⟨t, b, me, u, c⟩]
      hkeep (storeRequest ip t b me u c s) hs2t hs2w hs2f
  have hgate : ¬ (min 5 s.features_window ≤
      ((alookup (cleanOldData now (storeRequest ip t b me u c s)).traffic_data ip).getD
        []).length) := by
    rw [hclean.2.1]
    simpa using by omega
  have hrr : recordRequest score now ip t b me u c s
      = (true, cleanOldData now (storeRequest ip t b me u c s)) := by
    unfold recordRequest
    rw [if_neg hnb]
    dsimp only
    rw [if_neg hgate]
  rw [hrr]
  exact ⟨rfl, hclean.1, hclean.2.2, rfl⟩

theorem C8_tracked_vs_monitoring_witness :
    (recordRequest (fun _ _ => 0) 0 "c" 0 100 "GET" "/" 200 (initState 1 300 100)).1
      = true ∧
    alookup (recordRequest (fun _ _ => 0) 0 "c" 0 100 "GET" "/" 200
      (initState 1 300 100)).2.ip_timestamps "c" = some [0] ∧
    alookup (recordRequest (fun _ _ => 0) 0 "c" 0 100 "GET" "/" 200
      (initState 1 300 100)).2.ip_features "c" = none ∧
    (getStatus (recordRequest (fun _ _ => 0) 0 "c" 0 100 "GET" "/" 200
      (initState 1 300 100)).2).monitoring_ips
      = (recordRequest (fun _ _ => 0) 0 "c" 0 100 "GET" "/" 200
          (initState 1 300 100)).2.ip_features.length :=
  C8_tracked_vs_monitoring (fun _ _ => 0) 0 0 "c" 100 "GET" "/" 200
    (initState 1 300 100) (by decide) rfl rfl rfl (by norm_num [initState])
    (by norm_num [initState])

/-- The state reached inside `record_request` after the store appends, the
eviction sweep and the feature refresh — the state the population gate
`len(self.ip_features) > 10` is evaluated on. -/
def inlinePrep (now : ℚ) (ip : String) (t : ℚ) (b : ℤ) (me u : String) (c : ℤ)
    (s : DetectorState) : DetectorState :=
  extractFeaturesForIp ip (cleanOldData now (storeRequest ip t b me u c s))

/-- Lemma: `record_request` decomposed through `inlinePrep`, for a non-blocked key
whose window passes the sample-count gate. -/
theorem recordRequest_decomp (score : Score) (now t : ℚ) (ip : String) (b : ℤ)
    (me u : String) (c : ℤ) (s : DetectorState) (hnb : ip ∉ s.blocked_ips)
    (hg1 : min 5 s.features_window ≤
      ((alookup (cleanOldData now (storeRequest ip t b me u c s)).traffic_data ip).getD
        []).length) :
    recordRequest score now ip t b me u c s =
      (if alookup (inlinePrep now ip t b me u c s).ip_features ip ≠ none ∧
          10 < (inlinePrep now ip t b me u c s).ip_features.length then
        checkAnomalyRealtime score ip (inlinePrep now ip t b me u c s)
      else (true, inlinePrep now ip t b me u c s)) := by
  unfold recordRequest inlinePrep
  rw [if_neg hnb]
  dsimp only
  rw [if_pos hg1]

/-- Whenever the anomaly check reaches the scoring phase (key not
whitelisted, at least 10 cached vectors), `model.fit` runs: the instrumented
counter goes up by one. -/
theorem checkAnomaly_train (score : Score) (ip : String) (s : DetectorState)
    (hfp : ip ∉ s.false_positives) (hpop : 10 ≤ s.ip_features.length) :
    (checkAnomalyRealtime score ip s).2.trainCount = s.trainCount + 1 := by
  unfold checkAnomalyRealtime blockIp
  rw [if_neg hfp]
  have hlen : ¬ ((avalues s.ip_features).length < 10) := by
    simp only [avalues, List.length_map]
    omega
  rw [if_neg hlen]
  dsimp only
  split
  · rfl
  · split_ifs <;> rfl

/-- Lemma: `inlinePrep` does not run `model.fit`. -/
theorem inlinePrep_train (now t : ℚ) (ip : String) (b : ℤ) (me u : String) (c : ℤ)
    (s : DetectorState) : (inlinePrep now ip t b me u c s).trainCount = s.trainCount := by
  unfold inlinePrep
  rw [(extractFeaturesForIp_frame _ _).2.2.2.2.2.1, (cleanOldData_frame _ _).2.2.2.1,
    (storeRequest_frame _ _ _ _ _ _ _).2.2.2.2.1]

/-- Population with exactly 10 cached feature vectors (including key "a"),
whose window holds 4 fresh records; the next record is the 5th, so the
feature vector is refreshed, yet the population gate `> 10` fails. -/
def c4Vec : List ℚ := [0, 0, 0, 0, 0, 0, 0, 0, 0, 0]

def c4State : DetectorState :=
  { initState 1 1000000 100 with
    traffic_data := [("a", [sampleRecord 0, sampleRecord 0, sampleRecord 0,
      sampleRecord 0])],
    ip_timestamps := [("a", [0, 0, 0, 0])],
    ip_features := [("a", c4Vec), ("i1", c4Vec), ("i2", c4Vec), ("i3", c4Vec),
      ("i4", c4Vec), ("i5", c4Vec), ("i6", c4Vec), ("i7", c4Vec), ("i8", c4Vec),
      ("i9", c4Vec)] }

/-- C4 counterexample: with a population of exactly 10 cached vectors (key
included), an inline call that refreshes the key's vector still skips scoring
and allows, even under a score oracle that would demand an immediate block
(1000, against threshold 1): no fit happens and nothing is blocked, because
the code's gate is `len(ip_features) > 10`, not `>= 10`. -/
theorem C4_counterexample :
    (recordRequest (fun _ _ => 1000) 0 "a" 0 100 "GET" "/" 200
      c4State).2.ip_features.length = 10 ∧
    alookup (recordRequest (fun _ _ => 1000) 0 "a" 0 100 "GET" "/" 200
      c4State).2.ip_features "a" ≠ none ∧
    (recordRequest (fun _ _ => 1000) 0 "a" 0 100 "GET" "/" 200 c4State).1 = true ∧
    (recordRequest (fun _ _ => 1000) 0 "a" 0 100 "GET" "/" 200 c4State).2.blocked_ips
      = ∅ ∧
    (recordRequest (fun _ _ => 1000) 0 "a" 0 100 "GET" "/" 200 c4State).2.trainCount
      = 0 := by
  norm_num +decide [recordRequest, storeRequest, cleanOldData, cleanStep,
    extractFeaturesForIp, extractFeatures, c4State, c4Vec, initState, sampleRecord,
    akeys, alookup, ainsert, aerase, dequeAppend, diffs, maxQ, minQ, listMean, listVar,
    truncQ, List.count_cons, List.count_nil]

/-- C4 amended: on an inline call that passes the sample-count gate, scoring
is skipped (allow, no fit) whenever the refreshed population has at most 10
cached vectors; the anomaly check (scoring plus decision policy) runs exactly
when the population has strictly more than 10 members and the key has a
cached vector, and then (key not whitelisted) the model is refit on that
call. -/
theorem C4_population_gate (score : Score) (now t : ℚ) (ip : String) (b : ℤ)
    (me u : String) (c : ℤ) (s : DetectorState)
    (hnb : ip ∉ s.blocked_ips)
    (hg1 : min 5 s.features_window ≤
      ((alookup (cleanOldData now (storeRequest ip t b me u c s)).traffic_data ip).getD
        []).length) :
    ((inlinePrep now ip t b me u c s).ip_features.length ≤ 10 →
      recordRequest score now ip t b me u c s = (true, inlinePrep now ip t b me u c s) ∧
      (inlinePrep now ip t b me u c s).trainCount = s.trainCount) ∧
    (10 < (inlinePrep now ip t b me u c s).ip_features.length →
      alookup (inlinePrep now ip t b me u c s).ip_features ip ≠ none →
      recordRequest score now ip t b me u c s
        = checkAnomalyRealtime score ip (inlinePrep now ip t b me u c s) ∧
      (ip ∉ (inlinePrep now ip t b me u c s).false_positives →
        (recordRequest score now ip t b me u c s).2.trainCount = s.trainCount + 1)) := by
  have hd := recordRequest_decomp score now t ip b me u c s hnb hg1
  constructor
  · intro hle
    have hcond : ¬ (alookup (inlinePrep now ip t b me u c s).ip_features ip ≠ none ∧
        10 < (inlinePrep now ip t b me u c s).ip_features.length) :=
      fun hc => absurd hc.2 (by omega)
    rw [hd, if_neg hcond]
    exact ⟨rfl, inlinePrep_train now t ip b me u c s⟩
  · intro hgt hsome
    have hcond : (alookup (inlinePrep now ip t b me u c s).ip_features ip ≠ none ∧
        10 < (inlinePrep now ip t b me u c s).ip_features.length) := ⟨hsome, hgt⟩
    refine ⟨by rw [hd, if_pos hcond], fun hfp => ?_⟩
    rw [hd, if_pos hcond,
      checkAnomaly_train score ip (inlinePrep now ip t b me u c s) hfp (le_of_lt hgt),
      inlinePrep_train now t ip b me u c s]

theorem C4_population_gate_witness :
    recordRequest (fun _ _ => 1000) 0 "a" 0 100 "GET" "/" 200 c4State
      = (true, inlinePrep 0 "a" 0 100 "GET" "/" 200 c4State) ∧
    (inlinePrep 0 "a" 0 100 "GET" "/" 200 c4State).trainCount = c4State.trainCount :=
  (C4_population_gate (fun _ _ => 1000) 0 0 "a" 100 "GET" "/" 200 c4State (by decide)
      (by norm_num +decide [storeRequest, cleanOldData, cleanStep, c4State, initState,
        sampleRecord, akeys, alookup, ainsert, aerase, dequeAppend])).1
    (by norm_num +decide [inlinePrep, storeRequest, cleanOldData, cleanStep,
      extractFeaturesForIp, extractFeatures, c4State, c4Vec, initState, sampleRecord,
      akeys, alookup, ainsert, aerase, dequeAppend, diffs, maxQ, minQ, listMean,
      listVar, truncQ, List.count_cons, List.count_nil])

/-- Population with 11 cached feature vectors and an already published model
(`trainCount = 1`). -/
def c7State : DetectorState :=
  { c4State with
    ip_features := ("i10", c4Vec) :: c4State.ip_features,
    trainCount := 1 }

/-- C7 counterexample: a model is already published (`trainCount = 1`), and a
qualifying inline call (population 11 > 10, key cached, benign score 0) still
refits the model: the call is allowed but the fit counter rises to 2,
refuting "once a model has been published, no qualifying inline
record_request call retrains the model". -/
theorem C7_counterexample :
    c7State.trainCount = 1 ∧
    (recordRequest (fun _ _ => 0) 0 "a" 0 100 "GET" "/" 200 c7State).1 = true ∧
    (recordRequest (fun _ _ => 0) 0 "a" 0 100 "GET" "/" 200 c7State).2.trainCount
      = 2 := by
  norm_num +decide [recordRequest, storeRequest, cleanOldData, cleanStep,
    extractFeaturesForIp, extractFeatures, checkAnomalyRealtime, c7State, c4State,
    c4Vec, initState, sampleRecord, akeys, alookup, ainsert, aerase, avalues,
    dequeAppend, diffs, maxQ, minQ, listMean, listVar, truncQ, List.count_cons,
    List.count_nil]

/-- C7 amended: the code refits the model on every anomaly check that reaches
scoring (key not whitelisted, at least 10 cached vectors) — not only before
the first publication — and the periodic sweep also refits whenever it runs
with at least 5 cached vectors. -/
theorem C7_retrains_every_qualifying_call (score : Score) (now : ℚ) (ip : String)
    (s : DetectorState) (hfp : ip ∉ s.false_positives)
    (hpop : 10 ≤ s.ip_features.length) :
    (checkAnomalyRealtime score ip s).2.trainCount = s.trainCount + 1 ∧
    (periodicStep score now s).trainCount = s.trainCount + 1 := by
  refine ⟨checkAnomaly_train score ip s hfp hpop, ?_⟩
  unfold periodicStep
  rw [if_neg (by omega)]
  dsimp only
  rw [(cleanOldData_frame now _).2.2.2.1,
    (periodicFold_frame score s.ip_features s.block_threshold (akeys s.ip_features)
      _).2]

theorem C7_retrains_every_qualifying_call_witness :
    (checkAnomalyRealtime (fun _ _ => 0) "a" c7State).2.trainCount
      = c7State.trainCount + 1 ∧
    (periodicStep (fun _ _ => 0) 0 c7State).trainCount = c7State.trainCount + 1 :=
  C7_retrains_every_qualifying_call (fun _ _ => 0) 0 "a" c7State (by decide) (by decide)

/-- Evaluation of `_check_anomaly_realtime` past its guards: for a
non-whitelisted key with a cached vector and at least 10 cached vectors in
the population, the call fits the model and applies the inline decision
policy to the key's score. -/
theorem checkAnomaly_eval (score : Score) (ip : String) (v : List ℚ)
    (s : DetectorState) (hnfp : ip ∉ s.false_positives)
    (hv : alookup s.ip_features ip = some v)
    (hpop : 10 ≤ s.ip_features.length) :
    checkAnomalyRealtime score ip s =
      (if s.block_threshold < score (avalues s.ip_features) v then
        if s.block_threshold * (3 / 2) < score (avalues s.ip_features) v then
          (false,
            blockIp ip
              { s with
                trainCount := s.trainCount + 1
                suspicious_ips := insert ip s.suspicious_ips })
        else
          (true,
            { s with
              trainCount := s.trainCount + 1
              suspicious_ips := insert ip s.suspicious_ips })
      else (true, { s with trainCount := s.trainCount + 1 })) := by
  unfold checkAnomalyRealtime
  rw [if_neg hnfp]
  have hlen : ¬ ((avalues s.ip_features).length < 10) := by
    simp only [avalues, List.length_map]
    omega
  rw [if_neg hlen, hv]

/-- C5: for a scored key (cached vector, population at least 10, key neither
blocked nor whitelisted): when the score exceeds the threshold, the key is
marked suspicious on both paths, the inline call denies and blocks exactly
when the score exceeds 1.5 times the threshold, and the periodic sweep blocks
exactly when the score exceeds 1.3 times the threshold; when the score is at
most the threshold, the inline call allows with no registry change and the
periodic sweep leaves the key's memberships unchanged. -/
theorem C5_decision_policy (score : Score) (now : ℚ) (ip : String) (v : List ℚ)
    (s : DetectorState)
    (hnb : ip ∉ s.blocked_ips) (hnfp : ip ∉ s.false_positives)
    (hv : alookup s.ip_features ip = some v)
    (hpop : 10 ≤ s.ip_features.length)
    (hnd : (akeys s.ip_features).Nodup) :
    (s.block_threshold < score (avalues s.ip_features) v →
      (ip ∈ (checkAnomalyRealtime score ip s).2.suspicious_ips ∧
       ip ∈ (periodicStep score now s).suspicious_ips ∧
       ((checkAnomalyRealtime score ip s).1 = false ↔
         s.block_threshold * (3 / 2) < score (avalues s.ip_features) v) ∧
       (ip ∈ (checkAnomalyRealtime score ip s).2.blocked_ips ↔
         s.block_threshold * (3 / 2) < score (avalues s.ip_features) v) ∧
       (ip ∈ (periodicStep score now s).blocked_ips ↔
         s.block_threshold * (13 / 10) < score (avalues s.ip_features) v))) ∧
    (score (avalues s.ip_features) v ≤ s.block_threshold →
      ((checkAnomalyRealtime score ip s).1 = true ∧
       (checkAnomalyRealtime score ip s).2.suspicious_ips = s.suspicious_ips ∧
       (checkAnomalyRealtime score ip s).2.blocked_ips = s.blocked_ips ∧
       (ip ∈ (periodicStep score now s).suspicious_ips ↔ ip ∈ s.suspicious_ips) ∧
       ip ∉ (periodicStep score now s).blocked_ips)) := by
  have hce := checkAnomaly_eval score ip v s hnfp hv hpop
  obtain ⟨l1, l2, hl⟩ := List.append_of_mem (mem_akeys_of_alookup _ _ _ hv)
  have hnd' : (l1 ++ ip :: l2).Nodup := hl ▸ hnd
  rw [List.nodup_append] at hnd'
  have hip1 : ip ∉ l1 := fun h => hnd'.2.2 h (List.mem_cons_self ip l2)
  have hip2 : ip ∉ l2 := (List.nodup_cons.mp hnd'.2.1).1
  have hgate : ¬ (s.ip_features.length < 5) := by omega
  have hfold := periodicFold_eval score s.ip_features s.block_threshold l1 l2 ip v
    { s with trainCount := s.trainCount + 1 } hip1 hip2 hnb hnfp hv
  have hps_susp : ip ∈ (periodicStep score now s).suspicious_ips ↔
      (s.block_threshold < score (avalues s.ip_features) v ∨ ip ∈ s.suspicious_ips) := by
    unfold periodicStep
    rw [if_neg hgate]
    dsimp only
    rw [(cleanOldData_frame now _).2.1, hl]
    exact hfold.1
  have hps_blocked : ip ∈ (periodicStep score now s).blocked_ips ↔
      (s.block_threshold < score (avalues s.ip_features) v ∧
       s.block_threshold * (13 / 10) < score (avalues s.ip_features) v) := by
    unfold periodicStep
    rw [if_neg hgate]
    dsimp only
    rw [(cleanOldData_frame now _).1, hl]
    exact hfold.2
  constructor
  · intro hsc
    refine ⟨?_, ?_, ?_, ?_, ?_⟩
    · rw [hce, if_pos hsc]
      by_cases h2 : s.block_threshold * (3 / 2) < score (avalues s.ip_features) v
      · rw [if_pos h2]
        dsimp only
        rw [(blockIp_frame ip _).1]
        exact Finset.mem_insert_self _ _
      · rw [if_neg h2]
        exact Finset.mem_insert_self _ _
    · rw [hps_susp]
      exact Or.inl hsc
    · rw [hce, if_pos hsc]
      by_cases h2 : s.block_threshold * (3 / 2) < score (avalues s.ip_features) v
      · rw [if_pos h2]
        simp [h2]
      · rw [if_neg h2]
        simp [h2]
    · rw [hce, if_pos hsc]
      by_cases h2 : s.block_threshold * (3 / 2) < score (avalues s.ip_features) v
      · rw [if_pos h2]
        dsimp only
        rw [(blockIp_frame ip _).2.2.2]
        exact iff_of_true (Finset.mem_insert_self _ _) h2
      · rw [if_neg h2]
        exact iff_of_false hnb h2
    · rw [hps_blocked]
      simp [hsc]
  · intro hsc
    have hsc' : ¬ (s.block_threshold < score (avalues s.ip_features) v) :=
      not_lt.mpr hsc
    refine ⟨?_, ?_, ?_, ?_, ?_⟩
    · rw [hce, if_neg hsc']
    · rw [hce, if_neg hsc']
    · rw [hce, if_neg hsc']
    · rw [hps_susp]
      simp [hsc']
    · rw [hps_blocked]
      exact fun hc => hsc' hc.1

theorem C5_decision_policy_witness :
    "a" ∈ (checkAnomalyRealtime (fun _ _ => 2) "a" c4State).2.suspicious_ips ∧
    "a" ∈ (periodicStep (fun _ _ => 2) 0 c4State).suspicious_ips ∧
    "a" ∈ (periodicStep (fun _ _ => 2) 0 c4State).blocked_ips := by
  have h := (C5_decision_policy (fun _ _ => 2) 0 "a" c4Vec c4State (by decide)
    (by decide) rfl (by decide) (by decide)).1
    (by norm_num [c4State, initState])
  exact ⟨h.1, h.2.1, h.2.2.2.2.mpr (by norm_num [c4State, initState])⟩

end DDoSMonitor
